/-
Verification of the lyric-mood-ai core pipeline.

This file is a shallow embedding, in Lean 4, of the data model and the
operations of the repository's acquisition-and-analysis pipeline:

  * `src/models/emotion_analysis.py` — `EmotionScore`, `EmotionAnalysisResult`
    (with its `__post_init__` validation), `AnalysisSession`, `AnalysisHistory`;
  * `src/utils/validators.py` — `EmotionAnalysisValidator.validate_confidence_score`;
  * `src/services/ai_analysis_service.py` — the fallback emotion scorer
    `_create_fallback_response`, `_ensure_required_fields`, the parsing and
    error behaviour of `analyze_emotions`;
  * `src/services/genius_service.py` — `RateLimiter`, `_similarity_score`,
    the best-match selection of `find_and_fetch_song`, the lyrics scraping
    and cleaning (`scrape_lyrics`, `_clean_lyrics`) and `GeniusAPICache`.

Python machine floats are modelled as rationals (`ℚ`); Python's `round`
(round-half-to-even on the rational value) is modelled by `roundHalfEven`;
wall-clock instants (`datetime.now()`) are explicit rational parameters.
Fallible constructors (Python code that raises) return `Option`/`Except`.
-/

import Mathlib

namespace LyricMood

/-! ## Python-style helpers -/

/-- `str.lower()`: lower-case every character. -/
def strLower (s : String) : String := ⟨s.data.map Char.toLower⟩

/-- The characters Python's `str.strip()` and the regex class `\s` treat as
whitespace (ASCII fragment). -/
def isPySpace (c : Char) : Bool :=
  c = ' ' || c = '\t' || c = '\n' || c = '\r' || c = '\x0b' || c = '\x0c'

/-- `str.strip()` on a character list. -/
def pyStripList (s : List Char) : List Char :=
  ((s.dropWhile isPySpace).reverse.dropWhile isPySpace).reverse

/-- `str.strip()`. -/
def pyStrip (s : String) : String := ⟨pyStripList s.data⟩

/-- Python's `needle in haystack` on strings: substring containment. -/
def pyIn (needle haystack : String) : Bool :=
  haystack.data.tails.any (fun t => needle.data.isPrefixOf t)

/-- `str.split()` with no separator: split on runs of whitespace, dropping
empty tokens. -/
def pySplit (s : String) : List String :=
  (s.data.splitOnP isPySpace).filter (· ≠ []) |>.map fun l => ⟨l⟩

/-- Python's `max(xs, key=f)` on a list: the first element attaining the
maximal key (later elements replace the current best only when strictly
greater). `none` on the empty list (where Python raises `ValueError`). -/
def pyMaxBy {α : Type} (f : α → ℚ) : List α → Option α
  | [] => none
  | x :: xs => some (xs.foldl (fun b y => if f b < f y then y else b) x)

/-- Python's `min(xs, key=f)` on a list: the first element attaining the
minimal key. -/
def pyMinBy {α : Type} (f : α → ℚ) : List α → Option α
  | [] => none
  | x :: xs => some (xs.foldl (fun b y => if f y < f b then y else b) x)

/-! ## Rounding

Python's `round(x, n)` rounds half to even.  On the rational model it is
`roundHalfEven (10^n * x) / 10^n`. -/

/-- Round a rational to the nearest integer, ties to even.
(`Rat.floor` is used instead of `⌊·⌋` so that the definition evaluates
inside the kernel; `rat_floor_eq` identifies the two.) -/
def roundHalfEven (x : ℚ) : ℤ :=
  let f : ℤ := x.floor
  if x - f < 1/2 then f
  else if 1/2 < x - f then f + 1
  else if f % 2 = 0 then f else f + 1

theorem rat_floor_eq (x : ℚ) : x.floor = ⌊x⌋ := by
  rw [Rat.floor_def, Rat.floor_def']

/-- `round(x, 2)`. -/
def round2 (x : ℚ) : ℚ := (roundHalfEven (100 * x) : ℚ) / 100

/-- `round(x, 3)`. -/
def round3 (x : ℚ) : ℚ := (roundHalfEven (1000 * x) : ℚ) / 1000

theorem floor_le_roundHalfEven (x : ℚ) : ⌊x⌋ ≤ roundHalfEven x := by
  unfold roundHalfEven
  dsimp only
  rw [rat_floor_eq]
  split
  · exact le_refl _
  · split
    · exact Int.le_add_one (le_refl _)
    · split
      · exact le_refl _
      · exact Int.le_add_one (le_refl _)

theorem roundHalfEven_le_ceil (x : ℚ) : roundHalfEven x ≤ ⌈x⌉ := by
  unfold roundHalfEven
  dsimp only
  rw [rat_floor_eq]
  have hlt : ¬ x - ⌊x⌋ < 1/2 → ⌊x⌋ + 1 ≤ ⌈x⌉ := by
    intro h
    have h2 : (0 : ℚ) < x - ⌊x⌋ := lt_of_lt_of_le (by norm_num) (not_lt.mp h)
    have h3 : (⌊x⌋ : ℚ) < x := by linarith
    exact Int.add_one_le_iff.mpr (Int.lt_ceil.mpr h3)
  split
  · exact Int.floor_le_ceil x
  · next h =>
    split
    · exact hlt h
    · split
      · exact Int.floor_le_ceil x
      · exact hlt h

theorem roundHalfEven_intCast (k : ℤ) : roundHalfEven (k : ℚ) = k := by
  unfold roundHalfEven
  simp [rat_floor_eq, Int.floor_intCast]

theorem roundHalfEven_nonneg {x : ℚ} (h : 0 ≤ x) : 0 ≤ roundHalfEven x :=
  le_trans (Int.le_floor.mpr (by exact_mod_cast h)) (floor_le_roundHalfEven x)

theorem roundHalfEven_le_int {x : ℚ} {n : ℤ} (h : x ≤ n) : roundHalfEven x ≤ n :=
  le_trans (roundHalfEven_le_ceil x) (Int.ceil_le.mpr (by exact_mod_cast h))

theorem round2_bounds {x : ℚ} (h0 : 0 ≤ x) (h1 : x ≤ 100) :
    0 ≤ round2 x ∧ round2 x ≤ 100 := by
  unfold round2
  constructor
  · have := roundHalfEven_nonneg (x := 100 * x) (by positivity)
    positivity
  · have h2 : (100 : ℚ) * x ≤ ((10000 : ℤ) : ℚ) := by push_cast; linarith
    have h3 := roundHalfEven_le_int h2
    rw [div_le_iff₀ (by norm_num : (0:ℚ) < 100)]
    exact_mod_cast h3

theorem round2_idem (x : ℚ) : round2 (round2 x) = round2 x := by
  unfold round2
  have h : (100 : ℚ) * ((roundHalfEven (100 * x) : ℚ) / 100)
      = ((roundHalfEven (100 * x) : ℤ) : ℚ) := by
    field_simp
  rw [h, roundHalfEven_intCast]

theorem round3_bounds {x : ℚ} (h0 : 0 ≤ x) (h1 : x ≤ 1) :
    0 ≤ round3 x ∧ round3 x ≤ 1 := by
  unfold round3
  constructor
  · have := roundHalfEven_nonneg (x := 1000 * x) (by positivity)
    positivity
  · have h2 : (1000 : ℚ) * x ≤ ((1000 : ℤ) : ℚ) := by push_cast; linarith
    have h3 := roundHalfEven_le_int h2
    rw [div_le_iff₀ (by norm_num : (0:ℚ) < 1000)]
    exact_mod_cast h3

theorem round3_idem (x : ℚ) : round3 (round3 x) = round3 x := by
  unfold round3
  have h : (1000 : ℚ) * ((roundHalfEven (1000 * x) : ℚ) / 1000)
      = ((roundHalfEven (1000 * x) : ℤ) : ℚ) := by
    field_simp
  rw [h, roundHalfEven_intCast]

/-! ## `src/core/constants.py` -/

/-- `EmotionCategory` enumeration (`constants.py`). -/
inductive EmotionCategory : Type
  | happiness
  | sadness
  | anger
  | fear
  | love
deriving DecidableEq, Repr

/-- `EmotionCategory.value` of each member. -/
def EmotionCategory.value : EmotionCategory → String
  | .happiness => "happiness"
  | .sadness => "sadness"
  | .anger => "anger"
  | .fear => "fear"
  | .love => "love"

/-- The members of `EmotionCategory` in definition (iteration) order. -/
def allCategories : List EmotionCategory :=
  [.happiness, .sadness, .anger, .fear, .love]

/-- `AnalysisConstants.EMOTION_DESCRIPTIONS`. -/
def EMOTION_DESCRIPTIONS : EmotionCategory → String
  | .happiness => "Joy, contentment, positive emotions"
  | .sadness => "Melancholy, grief, sorrow"
  | .anger => "Rage, frustration, hostility"
  | .fear => "Anxiety, worry, dread"
  | .love => "Affection, romance, caring"

/-- `AnalysisStatus` enumeration (`emotion_analysis.py`). -/
inductive AnalysisStatus : Type
  | pending
  | in_progress
  | completed
  | failed
  | cached
deriving DecidableEq, Repr

/-! ## `src/utils/validators.py` -/

/-- `EmotionAnalysisValidator.validate_confidence_score`: rejects (raises
`ValidationError`, modelled as `none`) a confidence outside `[0, 1]`,
otherwise returns it rounded to three decimals. -/
def validate_confidence_score (confidence : ℚ) : Option ℚ :=
  if 0 ≤ confidence ∧ confidence ≤ 1 then some (round3 confidence) else none

theorem validate_confidence_score_sound {c c' : ℚ}
    (h : validate_confidence_score c = some c') :
    0 ≤ c' ∧ c' ≤ 1 ∧ round3 c' = c' := by
  unfold validate_confidence_score at h
  split at h
  · next hb =>
    obtain ⟨rfl⟩ : round3 c = c' := by injection h
    obtain ⟨h0, h1⟩ := round3_bounds hb.1 hb.2
    exact ⟨h0, h1, round3_idem c⟩
  · exact absurd h (by simp)

/-! ## `src/models/emotion_analysis.py`: `EmotionScore` -/

/-- A validated single emotion score (fields of the Python dataclass after
`__post_init__` has run). -/
structure EmotionScore : Type where
  emotion : EmotionCategory
  score : ℚ
  confidence : Option ℚ
  descr : Option String
deriving DecidableEq, Repr

/-- `EmotionScore(...)` construction including `__post_init__`: rejects a
score outside `[0, 100]` or a provided confidence outside `[0, 1]`, rounds
the score to two decimals, and defaults a missing/empty description from
`EMOTION_DESCRIPTIONS`. -/
def EmotionScore.make (emotion : EmotionCategory) (score : ℚ)
    (confidence : Option ℚ) (descr : Option String) : Option EmotionScore :=
  if 0 ≤ score ∧ score ≤ 100 then
    match confidence with
    | some c =>
        if 0 ≤ c ∧ c ≤ 1 then
          some ⟨emotion, round2 score, some c, some (defaultDescr emotion descr)⟩
        else none
    | none => some ⟨emotion, round2 score, none, some (defaultDescr emotion descr)⟩
  else none
where
  /-- `if not self.description: self.description = EMOTION_DESCRIPTIONS.get(...)`. -/
  defaultDescr (emotion : EmotionCategory) : Option String → String
    | some d => if d = "" then EMOTION_DESCRIPTIONS emotion else d
    | none => EMOTION_DESCRIPTIONS emotion

theorem EmotionScore.make_score_sound {cat : EmotionCategory} {s : ℚ}
    {conf : Option ℚ} {d : Option String} {e : EmotionScore}
    (h : EmotionScore.make cat s conf d = some e) :
    e.emotion = cat ∧ e.score = round2 s ∧ 0 ≤ e.score ∧ e.score ≤ 100 ∧
      round2 e.score = e.score := by
  unfold EmotionScore.make at h
  split at h
  · next hb =>
    obtain ⟨hb0, hb1⟩ := hb
    obtain ⟨hr0, hr1⟩ := round2_bounds hb0 hb1
    cases conf with
    | some c =>
        simp only at h
        split at h
        · cases h
          exact ⟨rfl, rfl, hr0, hr1, round2_idem s⟩
        · cases h
    | none =>
        simp only at h
        cases h
        exact ⟨rfl, rfl, hr0, hr1, round2_idem s⟩
  · cases h

/-! ## `src/models/emotion_analysis.py`: `EmotionAnalysisResult` -/

/-- The untyped emotion payload produced by response parsing (a Python
`dict`): the required fields of the expected JSON shape, each possibly
missing (`none`). -/
structure EmotionPayload : Type where
  happiness : Option ℚ
  sadness : Option ℚ
  anger : Option ℚ
  fear : Option ℚ
  love : Option ℚ
  dominant_emotion : Option String
  confidence : Option ℚ
  summary : Option String
deriving DecidableEq, Repr

/-- `api_response.get(emotion_cat.value, 0.0)`. -/
def payloadScore (p : EmotionPayload) : EmotionCategory → ℚ
  | .happiness => p.happiness.getD 0
  | .sadness => p.sadness.getD 0
  | .anger => p.anger.getD 0
  | .fear => p.fear.getD 0
  | .love => p.love.getD 0

/-- The fully validated analysis result (fields of the Python dataclass after
`__post_init__` has run).  The `emotion_scores` dict is modelled as an
association list in insertion order. -/
structure EmotionAnalysisResult : Type where
  emotion_scores : List (EmotionCategory × EmotionScore)
  dominant_emotion : EmotionCategory
  overall_confidence : ℚ
  summary : Option String
  analysis_model : String
  processing_time : Option ℚ
  analyzed_at : ℚ
  status : AnalysisStatus
deriving DecidableEq, Repr

/-- `EmotionAnalysisResult.get_dominant_emotion`:
`max(self.emotion_scores.keys(), key=lambda x: self.emotion_scores[x].score)`
— on a dict (unique keys) this is the first entry, in iteration order,
attaining the maximal score. -/
def get_dominant_emotion (scores : List (EmotionCategory × EmotionScore)) :
    Option EmotionCategory :=
  (pyMaxBy (fun q => q.2.score) scores).map Prod.fst

/-- `EmotionAnalysisResult(...)` construction including `__post_init__`:
validates the confidence, requires every emotion category to be present
(a missing or extra category raises `ValueError`, modelled as `none`), and
recomputes the dominant emotion as the argmax of the score set whenever the
caller-supplied `dominant_emotion` disagrees — so the stored dominant
emotion is always the argmax and the `dominant_emotion` argument never
influences the result. -/
def EmotionAnalysisResult.make
    (emotion_scores : List (EmotionCategory × EmotionScore))
    (dominant_emotion : EmotionCategory) (overall_confidence : ℚ)
    (summary : Option String) (processing_time : Option ℚ)
    (analyzed_at : ℚ) : Option EmotionAnalysisResult :=
  (validate_confidence_score overall_confidence).bind fun conf =>
    if allCategories.all (fun c => decide (c ∈ emotion_scores.map Prod.fst)) then
      (get_dominant_emotion emotion_scores).bind fun actual =>
        some ⟨emotion_scores, actual, conf, summary, "groq-ai",
          processing_time, analyzed_at, .completed⟩
    else none

/-- The loop in `from_api_response` matching the lower-cased
`dominant_emotion` string against `EmotionCategory` values. -/
def parseCategory (s : String) : Option EmotionCategory :=
  allCategories.find? (fun c => c.value = s)

/-- The `for emotion_cat in EmotionCategory` loop of `from_api_response`:
builds one validated `EmotionScore` per category (score defaulting to `0.0`
when the field is missing); any validation failure aborts construction. -/
def buildScores (p : EmotionPayload) :
    Option (List (EmotionCategory × EmotionScore)) :=
  (EmotionScore.make .happiness (payloadScore p .happiness) none none).bind fun e1 =>
  (EmotionScore.make .sadness (payloadScore p .sadness) none none).bind fun e2 =>
  (EmotionScore.make .anger (payloadScore p .anger) none none).bind fun e3 =>
  (EmotionScore.make .fear (payloadScore p .fear) none none).bind fun e4 =>
  (EmotionScore.make .love (payloadScore p .love) none none).bind fun e5 =>
  some [(.happiness, e1), (.sadness, e2), (.anger, e3), (.fear, e4), (.love, e5)]

/-- `EmotionAnalysisResult.from_api_response`: builds the score set, resolves
the claimed dominant emotion (falling back to the argmax when the string
matches no category; the `.getD .happiness` default is unreachable because
the score list always has five entries), and runs the validating
constructor. -/
def EmotionAnalysisResult.from_api_response (p : EmotionPayload)
    (processing_time : Option ℚ) (analyzed_at : ℚ) :
    Option EmotionAnalysisResult :=
  (buildScores p).bind fun scores =>
    let ds := strLower (p.dominant_emotion.getD "")
    let dominant : EmotionCategory :=
      match parseCategory ds with
      | some c => c
      | none => ((pyMaxBy (fun q => q.2.score) scores).map Prod.fst).getD .happiness
    EmotionAnalysisResult.make scores dominant (p.confidence.getD 0) p.summary
      processing_time analyzed_at

theorem buildScores_sound {p : EmotionPayload}
    {scores : List (EmotionCategory × EmotionScore)}
    (h : buildScores p = some scores) :
    scores.map Prod.fst = allCategories ∧
      ∀ e ∈ scores, 0 ≤ e.2.score ∧ e.2.score ≤ 100 ∧ round2 e.2.score = e.2.score := by
  unfold buildScores at h
  simp only [Option.bind_eq_some, Option.some.injEq] at h
  obtain ⟨e1, h1, e2, h2, e3, h3, e4, h4, e5, h5, rfl⟩ := h
  obtain ⟨-, -, b1⟩ := EmotionScore.make_score_sound h1
  obtain ⟨-, -, b2⟩ := EmotionScore.make_score_sound h2
  obtain ⟨-, -, b3⟩ := EmotionScore.make_score_sound h3
  obtain ⟨-, -, b4⟩ := EmotionScore.make_score_sound h4
  obtain ⟨-, -, b5⟩ := EmotionScore.make_score_sound h5
  refine ⟨rfl, ?_⟩
  intro e he
  simp only [List.mem_cons, List.not_mem_nil, or_false] at he
  rcases he with rfl | rfl | rfl | rfl | rfl
  · exact b1
  · exact b2
  · exact b3
  · exact b4
  · exact b5

theorem EmotionAnalysisResult.make_result_sound
    {scores : List (EmotionCategory × EmotionScore)} {dcat : EmotionCategory}
    {conf : ℚ} {summ : Option String} {pt : Option ℚ} {t : ℚ}
    {r : EmotionAnalysisResult}
    (h : EmotionAnalysisResult.make scores dcat conf summ pt t = some r) :
    r.emotion_scores = scores ∧
      get_dominant_emotion scores = some r.dominant_emotion ∧
      validate_confidence_score conf = some r.overall_confidence := by
  unfold EmotionAnalysisResult.make at h
  simp only [Option.bind_eq_some] at h
  obtain ⟨conf0, hv, h⟩ := h
  split at h
  · simp only [Option.bind_eq_some, Option.some.injEq] at h
    obtain ⟨actual, hd, rfl⟩ := h
    exact ⟨rfl, hd, hv⟩
  · cases h

/-- The `dominant_emotion` argument never influences the constructed
result: `__post_init__` always overwrites it with the argmax. -/
theorem EmotionAnalysisResult.make_dominant_irrelevant
    (scores : List (EmotionCategory × EmotionScore))
    (d1 d2 : EmotionCategory) (conf : ℚ) (summ : Option String)
    (pt : Option ℚ) (t : ℚ) :
    EmotionAnalysisResult.make scores d1 conf summ pt t
      = EmotionAnalysisResult.make scores d2 conf summ pt t := rfl

theorem buildScores_dominant_irrelevant (p : EmotionPayload) (d : Option String) :
    buildScores { p with dominant_emotion := d } = buildScores p := by
  cases p; rfl

theorem from_api_response_dominant_irrelevant (p : EmotionPayload)
    (d : Option String) (pt : Option ℚ) (t : ℚ) :
    EmotionAnalysisResult.from_api_response { p with dominant_emotion := d } pt t
      = EmotionAnalysisResult.from_api_response p pt t := by
  unfold EmotionAnalysisResult.from_api_response
  rw [buildScores_dominant_irrelevant]
  cases hb : buildScores p with
  | none => rfl
  | some scores =>
      rfl

/-- Sample payload used by the `C1` witness; the claimed dominant emotion
`"sadness"` disagrees with the argmax (`happiness`). -/
def samplePayload : EmotionPayload :=
  ⟨some 80, some 10, some 5, some 5, some 0, some "sadness", some (9/10), some "ok"⟩

/-- The analysis result actually constructed from `samplePayload`. -/
def sampleResult : EmotionAnalysisResult :=
  ⟨[(.happiness, ⟨.happiness, 80, none, some "Joy, contentment, positive emotions"⟩),
    (.sadness, ⟨.sadness, 10, none, some "Melancholy, grief, sorrow"⟩),
    (.anger, ⟨.anger, 5, none, some "Rage, frustration, hostility"⟩),
    (.fear, ⟨.fear, 5, none, some "Anxiety, worry, dread"⟩),
    (.love, ⟨.love, 0, none, some "Affection, romance, caring"⟩)],
   .happiness, 9/10, some "ok", "groq-ai", none, 0, .completed⟩

/-- `from_api_response` on `samplePayload` yields exactly `sampleResult`. -/
theorem sample_from_api_response :
    EmotionAnalysisResult.from_api_response samplePayload none 0 = some sampleResult := by
  norm_num [EmotionAnalysisResult.from_api_response, buildScores, EmotionScore.make,
    payloadScore, samplePayload, sampleResult, EmotionAnalysisResult.make,
    validate_confidence_score, get_dominant_emotion, pyMaxBy, parseCategory,
    allCategories, strLower, EmotionCategory.value, round2, round3, roundHalfEven,
    rat_floor_eq, EMOTION_DESCRIPTIONS, EmotionScore.make.defaultDescr]

/-- C1: for every emotion payload for which construction of an
`EmotionAnalysisResult` succeeds, the result has exactly the five categories
happiness, sadness, anger, fear, love (no more, no fewer), each score in
`[0, 100]` and rounded to two decimals, overall confidence in `[0, 1]`
rounded to three decimals, and a dominant category equal to the argmax of
the score set; a caller-supplied dominant category that disagrees with the
argmax is silently replaced by the argmax (the same result is constructed
whatever the claimed dominant emotion), not rejected. -/
theorem C1_result_invariants (p : EmotionPayload) (pt : Option ℚ) (t : ℚ)
    (r : EmotionAnalysisResult)
    (h : EmotionAnalysisResult.from_api_response p pt t = some r) :
    r.emotion_scores.map Prod.fst = allCategories ∧
    (∀ e ∈ r.emotion_scores, 0 ≤ e.2.score ∧ e.2.score ≤ 100 ∧
      round2 e.2.score = e.2.score) ∧
    (0 ≤ r.overall_confidence ∧ r.overall_confidence ≤ 1 ∧
      round3 r.overall_confidence = r.overall_confidence) ∧
    get_dominant_emotion r.emotion_scores = some r.dominant_emotion ∧
    (∀ d : Option String,
      EmotionAnalysisResult.from_api_response { p with dominant_emotion := d } pt t
        = some r) := by
  have h0 := h
  unfold EmotionAnalysisResult.from_api_response at h
  simp only [Option.bind_eq_some] at h
  obtain ⟨scores, hb, hmk⟩ := h
  obtain ⟨hsc, hdom, hv⟩ := EmotionAnalysisResult.make_result_sound hmk
  obtain ⟨hkeys, hbnd⟩ := buildScores_sound hb
  refine ⟨?_, ?_, ?_, ?_, ?_⟩
  · rw [hsc]; exact hkeys
  · rw [hsc]; exact hbnd
  · have hv2 : validate_confidence_score (p.confidence.getD 0)
        = some r.overall_confidence := hv
    exact validate_confidence_score_sound hv2
  · rw [hsc]; exact hdom
  · intro d
    rw [from_api_response_dominant_irrelevant]
    exact h0

/-- Witness for `C1_result_invariants` at `samplePayload`. -/
theorem C1_result_invariants_witness :
    EmotionAnalysisResult.from_api_response samplePayload none 0 = some sampleResult ∧
    (sampleResult.emotion_scores.map Prod.fst = allCategories ∧
    (∀ e ∈ sampleResult.emotion_scores, 0 ≤ e.2.score ∧ e.2.score ≤ 100 ∧
      round2 e.2.score = e.2.score) ∧
    (0 ≤ sampleResult.overall_confidence ∧ sampleResult.overall_confidence ≤ 1 ∧
      round3 sampleResult.overall_confidence = sampleResult.overall_confidence) ∧
    get_dominant_emotion sampleResult.emotion_scores
      = some sampleResult.dominant_emotion ∧
    (∀ d : Option String,
      EmotionAnalysisResult.from_api_response
        { samplePayload with dominant_emotion := d } none 0 = some sampleResult)) :=
  ⟨sample_from_api_response, C1_result_invariants samplePayload none 0 sampleResult
    sample_from_api_response⟩

/-! ## `pyMaxBy` specification -/

theorem foldlMax_mem {α : Type} (f : α → ℚ) (xs : List α) (acc : α) :
    xs.foldl (fun b y => if f b < f y then y else b) acc = acc ∨
      xs.foldl (fun b y => if f b < f y then y else b) acc ∈ xs := by
  induction xs generalizing acc with
  | nil => exact Or.inl rfl
  | cons x xs ih =>
      simp only [List.foldl_cons]
      rcases ih (if f acc < f x then x else acc) with h | h
      · rw [h]
        split
        · exact Or.inr (List.mem_cons_self ..)
        · exact Or.inl rfl
      · exact Or.inr (List.mem_cons_of_mem _ h)

theorem foldlMax_le {α : Type} (f : α → ℚ) (xs : List α) (acc : α) :
    f acc ≤ f (xs.foldl (fun b y => if f b < f y then y else b) acc) ∧
      ∀ x ∈ xs, f x ≤ f (xs.foldl (fun b y => if f b < f y then y else b) acc) := by
  induction xs generalizing acc with
  | nil => exact ⟨le_refl _, by simp⟩
  | cons x xs ih =>
      simp only [List.foldl_cons]
      obtain ⟨h1, h2⟩ := ih (if f acc < f x then x else acc)
      have hacc : f acc ≤ f (if f acc < f x then x else acc) := by
        split
        · next hlt => exact le_of_lt hlt
        · exact le_refl _
      have hx : f x ≤ f (if f acc < f x then x else acc) := by
        split
        · exact le_refl _
        · next hlt => exact not_lt.mp hlt
      refine ⟨le_trans hacc h1, ?_⟩
      intro y hy
      rcases List.mem_cons.mp hy with rfl | hy
      · exact le_trans hx h1
      · exact h2 y hy

/-- Python's `max(xs, key=f)` returns an element of the list that attains
the maximal key. -/
theorem pyMaxBy_spec {α : Type} {f : α → ℚ} {l : List α} {b : α}
    (h : pyMaxBy f l = some b) : b ∈ l ∧ ∀ x ∈ l, f x ≤ f b := by
  cases l with
  | nil => cases h
  | cons x xs =>
      unfold pyMaxBy at h
      injection h with h
      subst h
      constructor
      · rcases foldlMax_mem f xs x with h | h
        · rw [h]; exact List.mem_cons_self ..
        · exact List.mem_cons_of_mem _ h
      · intro y hy
        obtain ⟨h1, h2⟩ := foldlMax_le f xs x
        rcases List.mem_cons.mp hy with rfl | hy
        · exact h1
        · exact h2 y hy

/-! ## `src/services/ai_analysis_service.py`: the fallback scorer -/

/-- The fixed trigger-keyword sets of `_create_fallback_response`. -/
def triggerKeywords : EmotionCategory → List String
  | .happiness => ["happy", "joy", "good", "positive"]
  | .sadness => ["sad", "melancholy", "sorrow", "grief"]
  | .anger => ["anger", "rage", "mad", "fury"]
  | .fear => ["fear", "scared", "afraid", "anxious"]
  | .love => ["love", "romance", "affection", "caring"]

/-- `any(word in content_lower for word in [...])`: Python's `in` on strings
is **substring** containment. -/
def keywordHit (content : String) (c : EmotionCategory) : Bool :=
  (triggerKeywords c).any (fun w => pyIn w (strLower content))

/-- One category's score in `_create_fallback_response`: baseline `20.0`,
`+30` when any trigger keyword occurs in the lower-cased raw text. -/
def fallbackScore (content : String) (c : EmotionCategory) : ℚ :=
  20 + (if keywordHit content c then 30 else 0)

/-- `GroqAIService._create_fallback_response`: keyword-scored payload with
dominant emotion `max(emotion_scores.keys(), key=...)` (dict insertion order
`happiness, sadness, anger, fear, love`), confidence fixed at `0.6` and a
fixed summary template naming the dominant emotion. -/
def create_fallback_response (content : String) : EmotionPayload :=
  let scoresList : List (EmotionCategory × ℚ) :=
    allCategories.map fun c => (c, fallbackScore content c)
  let dominant : EmotionCategory :=
    ((pyMaxBy Prod.snd scoresList).map Prod.fst).getD .happiness
  ⟨some (fallbackScore content .happiness), some (fallbackScore content .sadness),
   some (fallbackScore content .anger), some (fallbackScore content .fear),
   some (fallbackScore content .love), some dominant.value, some (6/10),
   some ("Analysis completed using fallback method. Dominant emotion detected: "
     ++ dominant.value)⟩

/-- The matching rule asserted by the claim (formalised from the spec words
"matched case-insensitively as whole tokens", for comparison with the
code's substring rule `keywordHit`). -/
def claimTokenHit (content : String) (c : EmotionCategory) : Bool :=
  (triggerKeywords c).any (fun w => (pySplit (strLower content)).contains w)

/-- The per-category fallback score asserted by the claim: `+30` exactly
when a trigger keyword occurs as a whole token. -/
def claimFallbackScore (content : String) (c : EmotionCategory) : ℚ :=
  20 + (if claimTokenHit content c then 30 else 0)

/-- C2 counterexample: the code matches trigger keywords by **substring**
containment, not as whole tokens.  On the raw text `"madness"` the keyword
`"mad"` hits as a substring (anger score `50`), while the claimed
whole-token rule does not hit (claimed anger score `20`). -/
theorem C2_counterexample :
    payloadScore (create_fallback_response "madness") .anger = 50 ∧
    claimFallbackScore "madness" .anger = 20 ∧
    keywordHit "madness" .anger = true ∧
    claimTokenHit "madness" .anger = false := by
  have h1 : keywordHit "madness" .anger = true := by decide
  have h2 : claimTokenHit "madness" .anger = false := by decide
  refine ⟨?_, ?_, h1, h2⟩
  · norm_num [payloadScore, create_fallback_response, fallbackScore, h1]
  · norm_num [claimFallbackScore, h2]

/-- C2 (amended): for every raw response text from which no parseable JSON
payload was produced, the fallback payload starts all five categories at a
baseline score of `20.0` and adds `+30` to a category exactly when the raw
text **contains any of that category's trigger keywords as a substring**,
case-insensitively (not as whole tokens); the dominant category is the
argmax of the resulting scores, confidence is fixed at `0.6`, and the
summary is a fixed template naming the dominant category.  For raw text
`"love"` (containing the word "love" and no other trigger keyword) the
scores are `{happiness: 20, sadness: 20, anger: 20, fear: 20, love: 50}`
with dominant `"love"` and confidence `0.6`. -/
theorem C2_fallback_response (content : String) :
    (∀ c : EmotionCategory, payloadScore (create_fallback_response content) c
      = 20 + (if keywordHit content c then 30 else 0)) ∧
    (create_fallback_response content).confidence = some (6/10) ∧
    (∃ dcat : EmotionCategory,
      (create_fallback_response content).dominant_emotion = some dcat.value ∧
      (create_fallback_response content).summary
        = some ("Analysis completed using fallback method. Dominant emotion detected: "
            ++ dcat.value) ∧
      ∀ c : EmotionCategory, fallbackScore content c ≤ fallbackScore content dcat) ∧
    create_fallback_response "love"
      = ⟨some 20, some 20, some 20, some 20, some 50, some "love", some (6/10),
         some "Analysis completed using fallback method. Dominant emotion detected: love"⟩ := by
  refine ⟨?_, rfl, ?_, ?_⟩
  · intro c
    cases c <;> simp [payloadScore, create_fallback_response, fallbackScore]
  · cases hp : pyMaxBy Prod.snd (allCategories.map fun c => (c, fallbackScore content c)) with
    | none => simp [allCategories, pyMaxBy] at hp
    | some b =>
        obtain ⟨hmem, hle⟩ := pyMaxBy_spec hp
        obtain ⟨dcat, hdin, hdb⟩ := List.mem_map.mp hmem
        refine ⟨dcat, ?_, ?_, ?_⟩
        · simp only [create_fallback_response, hp, Option.map_some, Option.getD_some,
            Option.some.injEq]
          rw [← hdb]
          rfl
        · simp only [create_fallback_response, hp, Option.map_some, Option.getD_some,
            Option.some.injEq]
          rw [← hdb]
          rfl
        · intro c
          have hcmem : (c, fallbackScore content c)
              ∈ allCategories.map fun c => (c, fallbackScore content c) :=
            List.mem_map.mpr ⟨c, by cases c <;> simp [allCategories], rfl⟩
          have := hle _ hcmem
          rw [← hdb] at this
          simpa using this
  · have k1 : keywordHit "love" .happiness = false := by decide
    have k2 : keywordHit "love" .sadness = false := by decide
    have k3 : keywordHit "love" .anger = false := by decide
    have k4 : keywordHit "love" .fear = false := by decide
    have k5 : keywordHit "love" .love = true := by decide
    norm_num [create_fallback_response, fallbackScore, allCategories, pyMaxBy,
      EmotionCategory.value, k1, k2, k3, k4, k5]
    decide

/-! ## `src/services/ai_analysis_service.py`: response parsing and
`analyze_emotions` -/

/-- `GroqAIService._ensure_required_fields`: fills each missing required
field with its fixed default (`0.0` for scores, `0.5` for confidence, a
generic success string for the summary) and a missing `dominant_emotion`
with the argmax of the scores that are present (missing scores read as
`0`). -/
def ensure_required_fields (p : EmotionPayload) : EmotionPayload :=
  let dom : Option String :=
    match p.dominant_emotion with
    | some d => some d
    | none =>
        let scores : List (EmotionCategory × ℚ) :=
          allCategories.map fun c => (c, payloadScore p c)
        some ((((pyMaxBy Prod.snd scores).map Prod.fst).getD .happiness).value)
  ⟨some (p.happiness.getD 0), some (p.sadness.getD 0), some (p.anger.getD 0),
   some (p.fear.getD 0), some (p.love.getD 0), dom,
   some (p.confidence.getD (1/2)),
   some (p.summary.getD "Analysis completed successfully")⟩

/-- Abstraction of one choice's `message.content`, at the level
`_parse_analysis_response` branches on: `unparsed` models a content string
in which the `\x7b.*\x7d` regex finds no block, or `json.loads` fails even
after `_fix_json_format` (the fallback path); `parsed` models a content
string whose extracted block decodes (possibly after repair) to the payload
`p`.  The regex search and JSON decoding themselves are pure string
processing abstracted to their outcome; `raw` is the stripped content
string, which the fallback scorer consumes. -/
inductive ModelMessage : Type
  | unparsed (raw : String)
  | parsed (raw : String) (p : EmotionPayload)
deriving DecidableEq, Repr

/-- The distinct `AnalysisError` raises of `analyze_emotions` /
`_parse_analysis_response`. -/
inductive AnalysisErr : Type
  | emptyLyrics
  | noChoices
  | emptyContent
  | constructionFailed
deriving DecidableEq, Repr

/-- `GroqAIService._parse_analysis_response` on the `choices` of a response:
an empty choices list raises `AnalysisError("No choices in API response")`;
a first choice with missing or empty `message.content` (modelled `none`)
raises `AnalysisError("Empty content in API response")`; content with no
recoverable JSON is answered by `_create_fallback_response` (returned
directly, not passed through `_ensure_required_fields`); a decoded payload
is completed by `_ensure_required_fields`. -/
def parse_analysis_response (choices : List (Option ModelMessage)) :
    Except AnalysisErr EmotionPayload :=
  match choices with
  | [] => .error .noChoices
  | c0 :: _ =>
      match c0 with
      | none => .error .emptyContent
      | some (.unparsed raw) => .ok (create_fallback_response raw)
      | some (.parsed _raw p) => .ok (ensure_required_fields p)

/-- `GroqAIService.analyze_emotions` as a function of the lyrics and of the
response's choices: empty/whitespace lyrics raise `AnalysisError` before
any request; afterwards the response is parsed and the result constructed,
a `ValueError`/`ValidationError` during construction being re-raised
wrapped as `AnalysisError` (`constructionFailed`). -/
def analyze_emotions (lyrics : String) (choices : List (Option ModelMessage))
    (processing_time : Option ℚ) (now : ℚ) :
    Except AnalysisErr EmotionAnalysisResult :=
  if pyStrip lyrics = "" then .error .emptyLyrics
  else
    match parse_analysis_response choices with
    | .error e => .error e
    | .ok payload =>
        match EmotionAnalysisResult.from_api_response payload processing_time now with
        | some r => .ok r
        | none => .error .constructionFailed

/-- How many inference requests `analyze_emotions` issues: none when the
lyrics are empty/whitespace (the guard raises first), one otherwise. -/
def requests_made (lyrics : String) : Nat :=
  if pyStrip lyrics = "" then 0 else 1

theorem parse_no_emptyLyrics (choices : List (Option ModelMessage)) :
    parse_analysis_response choices ≠ .error .emptyLyrics := by
  unfold parse_analysis_response
  cases choices with
  | nil => simp
  | cons c0 rest =>
      cases c0 with
      | none => simp
      | some m => cases m <;> simp

/-- C3 counterexample: on non-empty lyrics and a response whose `choices`
list is empty, `analyze_emotions` raises `AnalysisError` even though a
request was made — refuting "for all other inputs it never raises
`AnalysisError`". -/
theorem C3_counterexample :
    analyze_emotions "hello" [] none 0 = .error .noChoices ∧
    requests_made "hello" = 1 ∧
    AnalysisErr.noChoices ≠ AnalysisErr.emptyLyrics := by
  refine ⟨rfl, rfl, by decide⟩

/-- C3 (amended): `analyze_emotions` fails with `AnalysisError` *before any
inference request is made* exactly when the lyrics are empty or whitespace;
for all other inputs a request is made and the empty-lyrics error can no
longer occur, but `analyze_emotions` may still raise `AnalysisError` after
the request — for example a response with no choices always does. -/
theorem C3_analysis_error_behaviour (lyrics : String)
    (choices : List (Option ModelMessage)) (pt : Option ℚ) (now : ℚ) :
    (pyStrip lyrics = "" ∧ requests_made lyrics = 0 ∧
        analyze_emotions lyrics choices pt now = .error .emptyLyrics) ∨
      (pyStrip lyrics ≠ "" ∧ requests_made lyrics = 1 ∧
        analyze_emotions lyrics choices pt now ≠ .error .emptyLyrics ∧
        analyze_emotions lyrics [] pt now = .error .noChoices) := by
  by_cases h : pyStrip lyrics = ""
  · exact Or.inl ⟨h, by simp [requests_made, h], by simp [analyze_emotions, h]⟩
  · refine Or.inr ⟨h, by simp [requests_made, h], ?_, ?_⟩
    · simp only [analyze_emotions, if_neg h]
      cases hp : parse_analysis_response choices with
      | error e =>
          simp only []
          intro hc
          injection hc with hc
          exact parse_no_emptyLyrics choices (by rw [hp, hc])
      | ok p =>
          cases hr : EmotionAnalysisResult.from_api_response p pt now <;>
            simp [hr]
    · simp [analyze_emotions, if_neg h, parse_analysis_response]

/-! ## `src/services/genius_service.py`: lyrics scraping and cleaning

The regex passes of `_clean_lyrics` are modelled character-exactly on
`List Char`, using Python `re.sub` semantics (leftmost match, scan resumes
after each match).  Each pass is written with an explicit fuel argument
(set to the input length, which every pass strictly decreases at each
step) so that the definitions evaluate inside the kernel. -/

/-- `re.sub(r'\[.*?\]', '')` helper: from the character after a `[`, the
lazily-matched closing `]` is the first one on the same line; returns the
remainder after it, or `none` when the line (or input) ends first. -/
def findCloseBracket : List Char → Option (List Char)
  | [] => none
  | ']' :: r => some r
  | '\n' :: _ => none
  | _ :: r => findCloseBracket r

/-- `re.sub(r'\[.*?\]', '', s)`: remove bracketed section markers. -/
def removeBracketsAux : Nat → List Char → List Char
  | 0, s => s
  | _ + 1, [] => []
  | fuel + 1, '[' :: rest =>
      match findCloseBracket rest with
      | some after => removeBracketsAux fuel after
      | none => '[' :: removeBracketsAux fuel rest
  | fuel + 1, c :: rest => c :: removeBracketsAux fuel rest

/-- `re.sub(r'\n\s*\n', '\n\n', s)`: a `\n` followed by a whitespace run
containing another `\n` matches through the run's last `\n` (greedy `\s*`
with the final `\n` backtracked) and is replaced by exactly two `\n`. -/
def collapseNLAux : Nat → List Char → List Char
  | 0, s => s
  | _ + 1, [] => []
  | fuel + 1, '\n' :: rest =>
      let ws := rest.takeWhile isPySpace
      if ws.contains '\n' then
        let trailing := (ws.reverse.takeWhile (fun c => ¬ c = '\n')).length
        '\n' :: '\n' :: collapseNLAux fuel (rest.drop (ws.length - trailing))
      else '\n' :: collapseNLAux fuel rest
  | fuel + 1, c :: rest => c :: collapseNLAux fuel rest

/-- `re.sub(r' +', ' ', s)`: collapse runs of spaces. -/
def collapseSpacesAux : Nat → List Char → List Char
  | 0, s => s
  | _ + 1, [] => []
  | fuel + 1, ' ' :: rest =>
      ' ' :: collapseSpacesAux fuel (rest.dropWhile (fun c => c = ' '))
  | fuel + 1, c :: rest => c :: collapseSpacesAux fuel rest

/-- Case-insensitive prefix test (`re.IGNORECASE` on an ASCII word). -/
def isPrefixCI (w t : List Char) : Bool :=
  decide ((t.take w.length).map Char.toLower = w)

/-- From the current scan position, find the lazily-matched occurrence of
`w` on the current line (`.` does not cross `\n`); returns the remainder
after the occurrence. -/
def findWordRest (w : List Char) : List Char → Option (List Char)
  | [] => if isPrefixCI w [] then some [] else none
  | c :: t2 =>
      if isPrefixCI w (c :: t2) then some ((c :: t2).drop w.length)
      else if c = '\n' then none
      else findWordRest w t2

/-- `re.sub(r'.*?W.*?', '', s, flags=re.IGNORECASE)`: at each scan position
the lazy pattern removes everything up to and including the next occurrence
of `W` on the same line (the trailing `.*?` matches empty); positions with
no such occurrence keep their character. -/
def removeAroundWordAux (w : List Char) : Nat → List Char → List Char
  | 0, s => s
  | _ + 1, [] => []
  | fuel + 1, c :: rest =>
      match findWordRest w (c :: rest) with
      | some after => removeAroundWordAux w fuel after
      | none => c :: removeAroundWordAux w fuel rest

/-- `re.sub(r'\d+Contributors.*?', '', s, flags=re.IGNORECASE)`: a maximal
digit run directly followed by `Contributors` is removed (backtracking
inside the digit run cannot succeed because a digit never equals `c`). -/
def removeContributorsAux : Nat → List Char → List Char
  | 0, s => s
  | _ + 1, [] => []
  | fuel + 1, c :: rest =>
      if c.isDigit then
        let digits := (c :: rest).takeWhile Char.isDigit
        let after := (c :: rest).drop digits.length
        if isPrefixCI "contributors".data after then
          removeContributorsAux fuel (after.drop 12)
        else c :: removeContributorsAux fuel rest
      else c :: removeContributorsAux fuel rest

/-- `GeniusAPIService._clean_lyrics`: remove bracketed section markers,
collapse repeated blank lines and runs of spaces, strip the boilerplate
patterns (`Lyrics`, `Embed`, `Share`, `\d+Contributors`, `Translation`,
case-insensitively) and `strip()` the result. -/
def clean_lyrics (s : String) : String :=
  let l1 := removeBracketsAux s.data.length s.data
  let l2 := collapseNLAux l1.length l1
  let l3 := collapseSpacesAux l2.length l2
  let l4 := removeAroundWordAux "lyrics".data l3.length l3
  let l5 := removeAroundWordAux "embed".data l4.length l4
  let l6 := removeAroundWordAux "share".data l5.length l5
  let l7 := removeContributorsAux l6.length l6
  let l8 := removeAroundWordAux "translation".data l7.length l7
  ⟨pyStripList l8⟩

/-- Abstraction of the parsed HTML page: for each of the four structural
selectors of `scrape_lyrics` (in their priority order), the
`get_text(separator='\n', strip=True)` of each matched container *after*
the nested ad/script/style nodes have been decomposed; and, for the
fallback, the `get_text(strip=True)` of every `div` in document order.
(BeautifulSoup parsing, CSS selector matching and node decomposition are
pure HTML processing abstracted to these per-container text lists.) -/
structure HtmlDoc : Type where
  selectorContainers : List (List String)
  divTexts : List String
deriving DecidableEq, Repr

/-- Errors of the lyrics path (`LyricsNotFoundError(song, artist)`). -/
inductive LyricsError : Type
  | lyricsNotFound (song_name artist_name : String)
deriving DecidableEq, Repr

instance {ε α : Type} [DecidableEq ε] [DecidableEq α] : DecidableEq (Except ε α) :=
  fun x y =>
    match x, y with
    | .ok a, .ok b =>
        if h : a = b then isTrue (by rw [h]) else
          isFalse (by intro hc; cases hc; exact h rfl)
    | .error a, .error b =>
        if h : a = b then isTrue (by rw [h]) else
          isFalse (by intro hc; cases hc; exact h rfl)
    | .ok _, .error _ => isFalse (by intro hc; cases hc)
    | .error _, .ok _ => isFalse (by intro hc; cases hc)

/-- The selector/container double loop of `scrape_lyrics`: every container
text longer than 50 characters — from *every* selector, the loop never
breaks — is appended to the accumulator followed by `'\n'`. -/
def collectLyricsText (doc : HtmlDoc) : String :=
  doc.selectorContainers.foldl
    (fun acc containers =>
      containers.foldl
        (fun acc2 text =>
          if text ≠ "" ∧ text.length > 50 then acc2 ++ text ++ "\n" else acc2)
        acc)
    ""

/-- The fallback scan of `scrape_lyrics`: the first `div` text longer than
200 characters containing a line break. -/
def fallbackDivText (divs : List String) : Option String :=
  divs.find? (fun t => t.length > 200 && t.data.contains '\n')

/-- `GeniusAPIService.scrape_lyrics` (after the HTTP fetch): collect
candidate texts, fall back to the first substantial `div`, fail when
nothing was found, clean, and fail when the cleaned text is shorter than
20 characters. -/
def scrape_lyrics (doc : HtmlDoc) : Except LyricsError String :=
  let collected := collectLyricsText doc
  let collected2 :=
    if collected = "" then (fallbackDivText doc.divTexts).getD "" else collected
  if collected2 = "" then .error (.lyricsNotFound "" "")
  else
    let cleaned := clean_lyrics collected2
    if (pyStrip cleaned).length < 20 then .error (.lyricsNotFound "" "")
    else .ok cleaned

/-- The flat characterization of the collection loop: the newline-joined
concatenation of every qualifying candidate across all selectors. -/
def concatQualifying (ts : List String) : String :=
  ts.foldr (fun t acc => if t ≠ "" ∧ t.length > 50 then t ++ ("\n" ++ acc) else acc) ""

theorem concatQualifying_append (ts us : List String) :
    concatQualifying (ts ++ us) = concatQualifying ts ++ concatQualifying us := by
  induction ts with
  | nil => simp [concatQualifying, String.empty_append]
  | cons t ts ih =>
      simp only [concatQualifying, List.cons_append, List.foldr_cons] at ih ⊢
      by_cases hc : t ≠ "" ∧ t.length > 50
      · rw [if_pos hc, if_pos hc, ih]
        simp only [String.append_assoc]
      · rw [if_neg hc, if_neg hc, ih]

theorem collect_inner (ts : List String) (acc : String) :
    ts.foldl (fun a t => if t ≠ "" ∧ t.length > 50 then a ++ t ++ "\n" else a) acc
      = acc ++ concatQualifying ts := by
  induction ts generalizing acc with
  | nil => simp [concatQualifying, String.append_empty]
  | cons t ts ih =>
      simp only [List.foldl_cons, concatQualifying, List.foldr_cons]
      by_cases hc : t ≠ "" ∧ t.length > 50
      · rw [if_pos hc, if_pos hc, ih]
        simp only [concatQualifying, String.append_assoc]
      · rw [if_neg hc, if_neg hc, ih]
        simp only [concatQualifying]

theorem collectLyricsText_eq (doc : HtmlDoc) :
    collectLyricsText doc = concatQualifying doc.selectorContainers.join := by
  unfold collectLyricsText
  suffices h : ∀ (ls : List (List String)) (acc : String),
      ls.foldl (fun a containers => containers.foldl
        (fun a2 t => if t ≠ "" ∧ t.length > 50 then a2 ++ t ++ "\n" else a2) a) acc
        = acc ++ concatQualifying ls.join by
    rw [h doc.selectorContainers "", String.empty_append]
  intro ls
  induction ls with
  | nil => intro acc; simp [concatQualifying, String.append_empty]
  | cons ts ls ih =>
      intro acc
      simp only [List.foldl_cons, List.join_cons]
      rw [collect_inner, ih, concatQualifying_append, String.append_assoc]

/-- 60 `a`s: a qualifying candidate with no cleaning-sensitive content. -/
def strA : String := ⟨List.replicate 60 'a'⟩

/-- 60 `b`s: a second qualifying candidate. -/
def strB : String := ⟨List.replicate 60 'b'⟩

set_option maxRecDepth 100000 in
/-- C4 counterexample: with two qualifying container texts under the first
selector, the text carried into post-processing is their concatenation —
not the first candidate alone; the claim's reading would give
`clean_lyrics strA = strA`. -/
theorem C4_counterexample :
    scrape_lyrics ⟨[[strA, strB]], []⟩ = .ok (strA ++ "\n" ++ strB) ∧
    strA ++ "\n" ++ strB ≠ clean_lyrics strA ∧
    clean_lyrics strA = strA := by
  refine ⟨?_, ?_, ?_⟩ <;> decide

/-- C4 (amended): the selector loop never stops at the first hit — the text
carried into post-processing is the newline-joined concatenation of *every*
candidate whose stripped text exceeds 50 characters, across all selectors
in their priority order; when at least one candidate qualified, extraction
fails with a lyrics-not-found error exactly when the cleaned result
(stripped) is shorter than 20 characters, and otherwise returns the cleaned
text. -/
theorem C4_scrape_behaviour (doc : HtmlDoc) :
    collectLyricsText doc = concatQualifying doc.selectorContainers.join ∧
    (collectLyricsText doc ≠ "" →
      scrape_lyrics doc =
        if (pyStrip (clean_lyrics (collectLyricsText doc))).length < 20
        then .error (.lyricsNotFound "" "")
        else .ok (clean_lyrics (collectLyricsText doc))) := by
  refine ⟨collectLyricsText_eq doc, ?_⟩
  intro h
  unfold scrape_lyrics
  simp only [if_neg h]

/-! ## `src/models/emotion_analysis.py`: `AnalysisSession`, `AnalysisHistory` -/

/-- The song a session analyses (`song_data.py`; only the fields the
verified session/history operations can observe are carried). -/
structure Song : Type where
  title : String
  artist_name : String
  lyrics : String
deriving DecidableEq, Repr

/-- `AnalysisSession` dataclass fields. -/
structure AnalysisSession : Type where
  session_id : String
  song : Song
  analysis_result : Option EmotionAnalysisResult
  error_message : Option String
  started_at : ℚ
  completed_at : Option ℚ
  status : AnalysisStatus
deriving DecidableEq, Repr

/-- `AnalysisSession.mark_completed`: stores the result, stamps the
completion time, sets `COMPLETED` and clears the error — unconditionally,
with no guard on the current status. -/
def mark_completed (analysis_result : EmotionAnalysisResult) (now : ℚ)
    (s : AnalysisSession) : AnalysisSession :=
  { s with analysis_result := some analysis_result, completed_at := some now,
           status := .completed, error_message := none }

/-- `AnalysisSession.mark_failed`: stores the error message, stamps the
completion time, sets `FAILED` and clears the result — unconditionally. -/
def mark_failed (error_message : String) (now : ℚ)
    (s : AnalysisSession) : AnalysisSession :=
  { s with error_message := some error_message, completed_at := some now,
           status := .failed, analysis_result := none }

/-- `AnalysisSession.mark_cached`: stores the result, stamps the completion
time, sets `CACHED` and clears the error — unconditionally. -/
def mark_cached (analysis_result : EmotionAnalysisResult) (now : ℚ)
    (s : AnalysisSession) : AnalysisSession :=
  { s with analysis_result := some analysis_result, completed_at := some now,
           status := .cached, error_message := none }

/-- `AnalysisSession.is_successful`. -/
def is_successful (s : AnalysisSession) : Bool :=
  decide (s.status = .completed) && s.analysis_result.isSome &&
    decide (s.error_message = none)

/-- `AnalysisHistory` dataclass fields. -/
structure AnalysisHistory : Type where
  sessions : List AnalysisSession
  created_at : ℚ
deriving DecidableEq, Repr

/-- `AnalysisHistory.total_sessions`. -/
def total_sessions (h : AnalysisHistory) : Nat := h.sessions.length

/-- `AnalysisHistory.get_successful_sessions`. -/
def get_successful_sessions (h : AnalysisHistory) : List AnalysisSession :=
  h.sessions.filter is_successful

/-- `AnalysisHistory.successful_sessions_count`. -/
def successful_sessions_count (h : AnalysisHistory) : Nat :=
  (get_successful_sessions h).length

/-- `AnalysisHistory.success_rate`: `0.0` for an empty history, otherwise
`successful_sessions_count / total_sessions`. -/
def success_rate (h : AnalysisHistory) : ℚ :=
  if h.sessions.isEmpty then 0
  else (successful_sessions_count h : ℚ) / (total_sessions h : ℚ)

/-- C5 counterexample: a session marked `COMPLETED` (a terminal state) is
moved to `FAILED` — with its result cleared and an error stored — by a
subsequent `mark_failed`; terminal states are not final. -/
theorem C5_counterexample :
    (mark_completed sampleResult 1
      ⟨"s1", ⟨"t", "a", "l"⟩, none, none, 0, none, .pending⟩).status
        = .completed ∧
    (mark_failed "boom" 2 (mark_completed sampleResult 1
      ⟨"s1", ⟨"t", "a", "l"⟩, none, none, 0, none, .pending⟩)).status = .failed ∧
    AnalysisStatus.failed ≠ AnalysisStatus.completed ∧
    (mark_failed "boom" 2 (mark_completed sampleResult 1
      ⟨"s1", ⟨"t", "a", "l"⟩, none, none, 0, none, .pending⟩)).analysis_result
        = none ∧
    (mark_completed sampleResult 1
      ⟨"s1", ⟨"t", "a", "l"⟩, none, none, 0, none, .pending⟩).analysis_result
        = some sampleResult := by
  exact ⟨rfl, rfl, by decide, rfl, rfl⟩

/-- C5 (amended): the `mark_*` operations overwrite status, result and
error message unconditionally, with no guard on the current status — in
particular a session in a terminal state (`Completed`/`Failed`/`Cached`)
transitions again whenever another `mark_*` operation is invoked, so
terminal states are final only in the absence of further `mark_*` calls. -/
theorem C5_mark_overwrites (s : AnalysisSession) (r : EmotionAnalysisResult)
    (msg : String) (t : ℚ) :
    ((mark_completed r t s).status = .completed ∧
      (mark_completed r t s).analysis_result = some r ∧
      (mark_completed r t s).error_message = none ∧
      (mark_completed r t s).completed_at = some t) ∧
    ((mark_failed msg t s).status = .failed ∧
      (mark_failed msg t s).analysis_result = none ∧
      (mark_failed msg t s).error_message = some msg ∧
      (mark_failed msg t s).completed_at = some t) ∧
    ((mark_cached r t s).status = .cached ∧
      (mark_cached r t s).analysis_result = some r ∧
      (mark_cached r t s).error_message = none ∧
      (mark_cached r t s).completed_at = some t) :=
  ⟨⟨rfl, rfl, rfl, rfl⟩, ⟨rfl, rfl, rfl, rfl⟩, ⟨rfl, rfl, rfl, rfl⟩⟩

/-- C10: `success_rate` is total — `0.0` on an empty history instead of a
division by zero, and `successful_sessions_count / total_sessions`, a value
in `[0, 1]`, on every non-empty history. -/
theorem C10_success_rate_total (h : AnalysisHistory) :
    0 ≤ success_rate h ∧ success_rate h ≤ 1 ∧
    success_rate ⟨[], 0⟩ = 0 ∧
    success_rate h = (if h.sessions.isEmpty then 0
      else (successful_sessions_count h : ℚ) / (total_sessions h : ℚ)) := by
  refine ⟨?_, ?_, rfl, rfl⟩ <;>
  · unfold success_rate
    split
    · norm_num
    · next hne =>
        have hlen : 0 < h.sessions.length := by
          cases hs : h.sessions with
          | nil => rw [hs] at hne; simp at hne
          | cons a l => simp [hs]
        have hle : successful_sessions_count h ≤ total_sessions h :=
          List.length_filter_le _ _
        first
        | positivity
        | · rw [div_le_one (by exact_mod_cast hlen)]
            exact_mod_cast hle

/-! ## `src/services/genius_service.py`: `_similarity_score` -/

/-- `set(s.lower().split())`: the lower-cased whitespace-tokenized word set. -/
def wordSet (s : String) : Finset String := (pySplit (strLower s)).toFinset

/-- `GeniusAPIService._similarity_score`: Jaccard similarity of the word
sets, `1.0` when both are empty, `0.0` when exactly one is. -/
def similarity_score (str1 str2 : String) : ℚ :=
  let words1 := wordSet str1
  let words2 := wordSet str2
  if words1 = ∅ ∧ words2 = ∅ then 1
  else if words1 = ∅ ∨ words2 = ∅ then 0
  else ((words1 ∩ words2).card : ℚ) / ((words1 ∪ words2).card : ℚ)

theorem similarity_score_bounds (x y : String) :
    0 ≤ similarity_score x y ∧ similarity_score x y ≤ 1 := by
  unfold similarity_score
  dsimp only
  split
  · norm_num
  · split
    · norm_num
    · next h1 h2 =>
        push_neg at h2
        obtain ⟨hx, _⟩ := h2
        have hsub : (wordSet x ∩ wordSet y).card ≤ (wordSet x ∪ wordSet y).card :=
          Finset.card_le_card Finset.inter_subset_union
        have hpos : 0 < ((wordSet x ∪ wordSet y).card : ℚ) := by
          have hne : (wordSet x ∪ wordSet y).Nonempty :=
            Finset.nonempty_iff_ne_empty.mpr (by
              intro hu
              exact hx (Finset.union_eq_empty.mp hu).1)
          exact_mod_cast Finset.card_pos.mpr hne
        constructor
        · positivity
        · rw [div_le_one hpos]
          exact_mod_cast hsub

/-- C6: the similarity score is in `[0, 1]` and symmetric; two empty
strings score `1.0`; a string scores `0` against an empty (or
whitespace-only, i.e. tokenless) argument unless its own word set is also
empty; `similarity("x", "") = 0`. -/
theorem C6_similarity_properties (a b : String) :
    (0 ≤ similarity_score a b ∧ similarity_score a b ≤ 1) ∧
    similarity_score a b = similarity_score b a ∧
    similarity_score "" "" = 1 ∧
    similarity_score a "" = (if wordSet a = ∅ then 1 else 0) ∧
    similarity_score "" a = (if wordSet a = ∅ then 1 else 0) ∧
    similarity_score "x" "" = 0 := by
  have hempty : wordSet "" = ∅ := by decide
  have hx : wordSet "x" = {"x"} := by decide
  refine ⟨similarity_score_bounds a b, ?_, ?_, ?_, ?_, ?_⟩
  · unfold similarity_score
    dsimp only
    rw [Finset.inter_comm, Finset.union_comm]
    by_cases ha : wordSet a = ∅ <;> by_cases hb : wordSet b = ∅ <;>
      simp [ha, hb]
  · simp [similarity_score, hempty]
  · by_cases ha : wordSet a = ∅ <;> simp [similarity_score, hempty, ha]
  · by_cases ha : wordSet a = ∅ <;> simp [similarity_score, hempty, ha]
  · have hne : wordSet "x" ≠ ∅ := by rw [hx]; decide
    simp [similarity_score, hempty, hne]

/-! ## `src/services/genius_service.py`: `RateLimiter` -/

/-- `RateLimiter` state: configured limits plus the recorded request
timestamps (`datetime` instants as rationals). -/
structure RateLimiter : Type where
  max_requests : Nat
  time_window : ℚ
  requests : List ℚ
deriving DecidableEq, Repr

/-- `RateLimiter.can_make_request`: prunes timestamps outside the trailing
window (`now - t < time_window` kept) and admits while fewer than
`max_requests` remain.  Returns the answer together with the mutated
state. -/
def can_make_request (now : ℚ) (rl : RateLimiter) : Bool × RateLimiter :=
  let pruned := rl.requests.filter (fun t => decide (now - t < rl.time_window))
  (decide (pruned.length < rl.max_requests), { rl with requests := pruned })

/-- `RateLimiter.record_request`. -/
def record_request (now : ℚ) (rl : RateLimiter) : RateLimiter :=
  { rl with requests := rl.requests ++ [now] }

/-- `RateLimiter.time_until_next_request`: `0.0` when admissible, otherwise
the time until the oldest recorded timestamp leaves the window.  (Python's
`min` of an empty list would raise; that branch is unreachable whenever
`max_requests > 0` and is modelled as `0`.) -/
def time_until_next_request (now : ℚ) (rl : RateLimiter) : ℚ × RateLimiter :=
  let res := can_make_request now rl
  if res.1 then (0, res.2)
  else
    match (res.2).requests.min? with
    | some oldest => (oldest + (res.2).time_window - now, res.2)
    | none => (0, res.2)

/-- A list with a member failing the predicate filters to a strictly
shorter list. -/
theorem length_filter_lt_of_mem_false {α : Type} {p : α → Bool}
    {l : List α} {x : α} (hx : x ∈ l) (hpx : p x = false) :
    (l.filter p).length < l.length := by
  induction l with
  | nil => cases hx
  | cons a l ih =>
      rcases List.mem_cons.mp hx with rfl | hx2
      · rw [List.filter_cons_of_neg (by simp [hpx])]
        have := List.length_filter_le p l
        simp only [List.length_cons]
        omega
      · by_cases hpa : p a = true
        · rw [List.filter_cons_of_pos hpa]
          simp only [List.length_cons]
          exact Nat.succ_lt_succ (ih hx2)
        · rw [List.filter_cons_of_neg (by simpa using hpa)]
          have := ih hx2
          simp only [List.length_cons]
          omega

/-- C8: with `N = 3`, `W = 60` and three timestamps recorded within the
last 10 seconds, `can_make_request` is `false` and
`time_until_next_request` is in `(0, 60]`; once the window has elapsed past
the **oldest** recorded timestamp (`now2 - oldest ≥ 60`), `can_make_request`
is `true` again — the oldest timestamp is pruned and fewer than three
remain; and `time_until_next_request` is `0` whenever the limiter is
admissible. -/
theorem C8_rate_limiter (rl : RateLimiter) (now now2 oldest : ℚ)
    (hN : rl.max_requests = 3) (hW : rl.time_window = 60)
    (hlen : rl.requests.length = 3)
    (hrecent : ∀ t ∈ rl.requests, 0 ≤ now - t ∧ now - t ≤ 10)
    (hmin : rl.requests.min? = some oldest)
    (helapsed : 60 ≤ now2 - oldest) :
    (can_make_request now rl).1 = false ∧
    (0 < (time_until_next_request now rl).1 ∧
      (time_until_next_request now rl).1 ≤ 60) ∧
    (can_make_request now2 rl).1 = true ∧
    (time_until_next_request now2 rl).1 = 0 ∧
    (∀ (rl2 : RateLimiter) (n : ℚ), (can_make_request n rl2).1 = true →
      (time_until_next_request n rl2).1 = 0) := by
  have hprune : rl.requests.filter (fun t => decide (now - t < rl.time_window))
      = rl.requests := by
    rw [List.filter_eq_self]
    intro t ht
    have := (hrecent t ht).2
    rw [hW]
    simp only [decide_eq_true_eq]
    linarith
  have hfalse : (can_make_request now rl).1 = false := by
    unfold can_make_request
    simp only [hprune, hlen, hN, decide_eq_false_iff_not]
    omega
  have hmem : oldest ∈ rl.requests :=
    List.min?_mem (fun a b => min_choice a b) hmin
  have holdfail : decide (now2 - oldest < rl.time_window) = false := by
    simp only [decide_eq_false_iff_not, hW]
    intro hc
    linarith
  have hlt := length_filter_lt_of_mem_false
    (p := fun t => decide (now2 - t < rl.time_window)) hmem holdfail
  have htrue : (can_make_request now2 rl).1 = true := by
    unfold can_make_request
    simp only [decide_eq_true_eq]
    rw [hN]
    rw [hlen] at hlt
    omega
  have hgen : ∀ (rl2 : RateLimiter) (n : ℚ), (can_make_request n rl2).1 = true →
      (time_until_next_request n rl2).1 = 0 := by
    intro rl2 n h
    unfold time_until_next_request
    simp only [h, if_true]
  refine ⟨hfalse, ?_, htrue, hgen rl now2 htrue, hgen⟩
  unfold time_until_next_request
  simp only [hfalse, Bool.false_eq_true, if_false]
  have hrequests : (can_make_request now rl).2.requests = rl.requests := by
    unfold can_make_request
    simp only [hprune]
  rw [hrequests, hmin]
  obtain ⟨h0, h10⟩ := hrecent oldest hmem
  have hw : (can_make_request now rl).2.time_window = 60 := by
    unfold can_make_request
    simpa using hW
  simp only [hw]
  constructor <;> linarith

/-- Witness for `C8_rate_limiter`: `N = 3`, `W = 60`, timestamps
`0, 5, 10`, queried at `now = 10` and again at `now2 = 60` — the exact
instant the window has elapsed past the oldest timestamp `0`, where the
two remaining timestamps (`5`, `10`) are still inside the window. -/
theorem C8_rate_limiter_witness :
    (can_make_request 10 ⟨3, 60, [0, 5, 10]⟩).1 = false ∧
    (0 < (time_until_next_request 10 ⟨3, 60, [0, 5, 10]⟩).1 ∧
      (time_until_next_request 10 ⟨3, 60, [0, 5, 10]⟩).1 ≤ 60) ∧
    (can_make_request 60 ⟨3, 60, [0, 5, 10]⟩).1 = true ∧
    (time_until_next_request 60 ⟨3, 60, [0, 5, 10]⟩).1 = 0 ∧
    (∀ (rl2 : RateLimiter) (n : ℚ), (can_make_request n rl2).1 = true →
      (time_until_next_request n rl2).1 = 0) :=
  C8_rate_limiter ⟨3, 60, [0, 5, 10]⟩ 10 60 0 rfl rfl rfl
    (by
      intro t ht
      simp only [List.mem_cons, List.not_mem_nil, or_false] at ht
      rcases ht with rfl | rfl | rfl <;> norm_num)
    (by decide)
    (by norm_num)

/-! ## `src/services/genius_service.py`: `GeniusAPICache`

The Python `dict` backing the cache is modelled as an association list in
insertion order with unique keys: assignment to an existing key updates in
place, assignment to a new key appends, `del` removes. -/

theorem foldlMin_mem {α : Type} (f : α → ℚ) (xs : List α) (acc : α) :
    xs.foldl (fun b y => if f y < f b then y else b) acc = acc ∨
      xs.foldl (fun b y => if f y < f b then y else b) acc ∈ xs := by
  induction xs generalizing acc with
  | nil => exact Or.inl rfl
  | cons x xs ih =>
      simp only [List.foldl_cons]
      rcases ih (if f x < f acc then x else acc) with h | h
      · rw [h]
        split
        · exact Or.inr (List.mem_cons_self ..)
        · exact Or.inl rfl
      · exact Or.inr (List.mem_cons_of_mem _ h)

theorem foldlMin_le {α : Type} (f : α → ℚ) (xs : List α) (acc : α) :
    f (xs.foldl (fun b y => if f y < f b then y else b) acc) ≤ f acc ∧
      ∀ x ∈ xs, f (xs.foldl (fun b y => if f y < f b then y else b) acc) ≤ f x := by
  induction xs generalizing acc with
  | nil => exact ⟨le_refl _, by simp⟩
  | cons x xs ih =>
      simp only [List.foldl_cons]
      obtain ⟨h1, h2⟩ := ih (if f x < f acc then x else acc)
      have hacc : f (if f x < f acc then x else acc) ≤ f acc := by
        split
        · next hlt => exact le_of_lt hlt
        · exact le_refl _
      have hx : f (if f x < f acc then x else acc) ≤ f x := by
        split
        · exact le_refl _
        · next hlt => exact not_lt.mp hlt
      refine ⟨le_trans h1 hacc, ?_⟩
      intro y hy
      rcases List.mem_cons.mp hy with rfl | hy
      · exact le_trans h1 hx
      · exact h2 y hy

/-- Python's `min(xs, key=f)` returns an element of the list attaining the
minimal key. -/
theorem pyMinBy_spec {α : Type} {f : α → ℚ} {l : List α} {b : α}
    (h : pyMinBy f l = some b) : b ∈ l ∧ ∀ x ∈ l, f b ≤ f x := by
  cases l with
  | nil => cases h
  | cons x xs =>
      unfold pyMinBy at h
      injection h with h
      subst h
      constructor
      · rcases foldlMin_mem f xs x with h | h
        · rw [h]; exact List.mem_cons_self ..
        · exact List.mem_cons_of_mem _ h
      · intro y hy
        obtain ⟨h1, h2⟩ := foldlMin_le f xs x
        rcases List.mem_cons.mp hy with rfl | hy
        · exact h1
        · exact h2 y hy

/-- `self._cache[key]` (as `Option`). -/
def dictLookup {V : Type} (key : String) (l : List (String × V × ℚ)) :
    Option (V × ℚ) :=
  (l.find? (fun e => e.1 == key)).map Prod.snd

/-- `self._cache[key] = value`: update in place, or append. -/
def dictSet {V : Type} (key : String) (value : V × ℚ) :
    List (String × V × ℚ) → List (String × V × ℚ)
  | [] => [(key, value)]
  | e :: es => if e.1 = key then (key, value) :: es else e :: dictSet key value es

/-- `del self._cache[key]`. -/
def dictDel {V : Type} (key : String) (l : List (String × V × ℚ)) :
    List (String × V × ℚ) :=
  l.filter (fun e => !(e.1 == key))

theorem dictLookup_set_self {V : Type} (key : String) (v : V × ℚ)
    (l : List (String × V × ℚ)) : dictLookup key (dictSet key v l) = some v := by
  induction l with
  | nil => simp [dictLookup, dictSet]
  | cons e es ih =>
      by_cases h : e.1 = key
      · simp [dictLookup, dictSet, h]
      · simp only [dictSet, if_neg h]
        simpa [dictLookup, List.find?_cons, h] using ih

theorem dictLookup_set_ne {V : Type} (key key2 : String) (v : V × ℚ)
    (l : List (String × V × ℚ)) (h : key2 ≠ key) :
    dictLookup key2 (dictSet key v l) = dictLookup key2 l := by
  have hk : ((key == key2) : Bool) = false := by
    simp only [beq_eq_false_iff_ne, ne_eq]
    exact fun hc => h hc.symm
  induction l with
  | nil => simp [dictLookup, dictSet, List.find?_cons, hk]
  | cons e es ih =>
      simp only [dictSet]
      by_cases he : e.1 = key
      · have hef : ((e.1 == key2) : Bool) = false := by
          simp only [beq_eq_false_iff_ne, ne_eq, he]
          exact fun hc => h hc.symm
        rw [if_pos he]
        simp [dictLookup, List.find?_cons, hk, hef]
      · rw [if_neg he]
        by_cases he2 : e.1 = key2
        · simp [dictLookup, List.find?_cons, he2]
        · have hef : ((e.1 == key2) : Bool) = false := by simp [he2]
          simp only [dictLookup, List.find?_cons, hef] at ih ⊢
          exact ih

theorem dictLookup_del_self {V : Type} (key : String)
    (l : List (String × V × ℚ)) : dictLookup key (dictDel key l) = none := by
  induction l with
  | nil => simp [dictLookup, dictDel]
  | cons e es ih =>
      by_cases h : e.1 = key
      · simpa [dictDel, List.filter_cons, h] using ih
      · simp only [dictDel, List.filter_cons] at ih ⊢
        simpa [h, dictLookup, List.find?_cons] using ih

/-- `GeniusAPICache` state. -/
structure GeniusAPICache (V : Type) : Type where
  max_size : Nat
  ttl_seconds : ℚ
  cache : List (String × V × ℚ)

/-- `GeniusAPICache.get`: a missing key is a miss; an entry older than the
TTL (`now - timestamp > ttl_seconds`) is deleted and reported as a miss;
otherwise the stored value is returned.  Returns the value (or miss)
together with the mutated cache. -/
def GeniusAPICache.get {V : Type} (now : ℚ) (key : String)
    (c : GeniusAPICache V) : Option V × GeniusAPICache V :=
  match dictLookup key c.cache with
  | none => (none, c)
  | some (v, ts) =>
      if now - ts > c.ttl_seconds then
        (none, { c with cache := dictDel key c.cache })
      else (some v, c)

/-- `min(self._cache.keys(), key=lambda k: self._cache[k][1])` on the
(unique-keyed) association list: the first entry with the oldest insertion
timestamp. -/
def oldestEntry {V : Type} (l : List (String × V × ℚ)) :
    Option (String × V × ℚ) :=
  pyMinBy (fun e => e.2.2) l

/-- `GeniusAPICache.set`: when the cache is at capacity
(`len >= max_size`), first evict the entry with the oldest insertion
timestamp, then store the value under the key with the current time as its
insertion timestamp.  (Python's `min` over an empty dict would raise; that
branch, reachable only with `max_size = 0` and an empty cache, is modelled
as a no-op eviction.) -/
def GeniusAPICache.set {V : Type} (now : ℚ) (key : String) (value : V)
    (c : GeniusAPICache V) : GeniusAPICache V :=
  let cache1 :=
    if c.cache.length ≥ c.max_size then
      match oldestEntry c.cache with
      | some e0 => dictDel e0.1 c.cache
      | none => c.cache
    else c.cache
  { c with cache := dictSet key (value, now) cache1 }

/-- C7: a `put` followed immediately by a `get` on the same key returns the
stored value; a `get` after the TTL has elapsed since the entry's insertion
is a miss and removes the entry; and a `put` on a cache at capacity first
evicts the entry with the oldest insertion timestamp (the inserted key
itself is stored with the current time). -/
theorem C7_cache_behaviour {V : Type} (c : GeniusAPICache V) (now now2 : ℚ)
    (key : String) (value : V)
    (h0 : 0 ≤ c.ttl_seconds) (httl : c.ttl_seconds < now2 - now)
    (hcap : c.cache.length ≥ c.max_size) (hne : c.cache ≠ []) :
    ((GeniusAPICache.set now key value c).get now key).1 = some value ∧
    (((GeniusAPICache.set now key value c).get now2 key).1 = none ∧
      dictLookup key (((GeniusAPICache.set now key value c).get now2 key).2).cache
        = none) ∧
    (∃ e0, oldestEntry c.cache = some e0 ∧
      (∀ e ∈ c.cache, e0.2.2 ≤ e.2.2) ∧
      (GeniusAPICache.set now key value c).cache
        = dictSet key (value, now) (dictDel e0.1 c.cache) ∧
      (e0.1 ≠ key →
        dictLookup e0.1 ((GeniusAPICache.set now key value c).cache) = none) ∧
      dictLookup key ((GeniusAPICache.set now key value c).cache)
        = some (value, now)) := by
  obtain ⟨e0, he0⟩ : ∃ e0, oldestEntry c.cache = some e0 := by
    unfold oldestEntry
    cases hc : c.cache with
    | nil => exact absurd hc hne
    | cons e es => exact ⟨_, rfl⟩
  obtain ⟨he0mem, he0min⟩ := pyMinBy_spec he0
  have hset : (GeniusAPICache.set now key value c).cache
      = dictSet key (value, now) (dictDel e0.1 c.cache) := by
    unfold GeniusAPICache.set
    simp only [if_pos hcap, he0]
  have hlook : dictLookup key ((GeniusAPICache.set now key value c).cache)
      = some (value, now) := by
    rw [hset]
    exact dictLookup_set_self ..
  refine ⟨?_, ?_, e0, he0, he0min, hset, ?_, hlook⟩
  · unfold GeniusAPICache.get
    rw [hlook]
    have hn : ¬ (now - now > (GeniusAPICache.set now key value c).ttl_seconds) := by
      unfold GeniusAPICache.set
      simp only
      linarith
    simp only [if_neg hn]
  · have httl2 : now2 - now > (GeniusAPICache.set now key value c).ttl_seconds := by
      unfold GeniusAPICache.set
      simp only
      linarith
    unfold GeniusAPICache.get
    rw [hlook]
    simp only [if_pos httl2]
    exact ⟨trivial, dictLookup_del_self ..⟩
  · intro hne0
    rw [hset, dictLookup_set_ne _ _ _ _ hne0]
    exact dictLookup_del_self ..

/-- Witness for `C7_cache_behaviour`: a capacity-1 cache holding
`("a", "x", 0)` with TTL 100; `put "b"` at `now = 1`, `get` at `now = 1`
and at `now2 = 200`. -/
theorem C7_cache_behaviour_witness :
    ((GeniusAPICache.set 1 "b" "y" ⟨1, 100, [("a", "x", 0)]⟩).get 1 "b").1
        = some "y" ∧
    (((GeniusAPICache.set 1 "b" "y" ⟨1, 100, [("a", "x", 0)]⟩).get 200 "b").1
        = none ∧
      dictLookup "b"
        (((GeniusAPICache.set 1 "b" "y" ⟨1, 100, [("a", "x", 0)]⟩).get
          200 "b").2).cache = none) ∧
    (∃ e0, oldestEntry [("a", "x", (0 : ℚ))] = some e0 ∧
      (∀ e ∈ [("a", "x", (0 : ℚ))], e0.2.2 ≤ e.2.2) ∧
      (GeniusAPICache.set 1 "b" "y" ⟨1, 100, [("a", "x", 0)]⟩).cache
        = dictSet "b" ("y", 1) (dictDel e0.1 [("a", "x", 0)]) ∧
      (e0.1 ≠ "b" →
        dictLookup e0.1
          ((GeniusAPICache.set 1 "b" "y" ⟨1, 100, [("a", "x", 0)]⟩).cache)
          = none) ∧
      dictLookup "b" ((GeniusAPICache.set 1 "b" "y" ⟨1, 100, [("a", "x", 0)]⟩).cache)
        = some ("y", 1)) :=
  C7_cache_behaviour ⟨1, 100, [("a", "x", 0)]⟩ 1 200 "b" "y"
    (by norm_num) (by norm_num) (by norm_num) (by simp)

/-! ## `src/services/genius_service.py`: best-match selection in
`find_and_fetch_song` -/

/-- `SearchResult` dataclass fields. -/
structure SearchResult : Type where
  song_id : ℤ
  title : String
  artist_name : String
  url : String
  thumbnail_url : Option String
  view_count : Option ℤ
deriving DecidableEq, Repr

/-- The acceptance test of the matching loop: both the title similarity and
the artist similarity (of the lower-cased strings) strictly exceed `0.7`. -/
def isConfidentMatch (song_name artist_name : String) (r : SearchResult) : Bool :=
  decide (7/10 < similarity_score (strLower song_name) (strLower r.title)) &&
    decide (7/10 < similarity_score (strLower artist_name) (strLower r.artist_name))

/-- The candidate-selection core of `GeniusAPIService.find_and_fetch_song`:
with no candidates, raise `LyricsNotFoundError(song, artist)`; otherwise
take the first candidate in search order passing `isConfidentMatch`, and
fall back to the first search result when none passes. -/
def find_best_match (song_name artist_name : String)
    (search_results : List SearchResult) : Except LyricsError SearchResult :=
  match search_results with
  | [] => .error (.lyricsNotFound song_name artist_name)
  | r0 :: rest =>
      match (r0 :: rest).find? (isConfidentMatch song_name artist_name) with
      | some r => .ok r
      | none => .ok r0

/-- `find?` over `l1 ++ r :: l2` returns `r` when everything in `l1` fails
the predicate and `r` passes it. -/
theorem find?_append_first {α : Type} {p : α → Bool} (l1 l2 : List α) (r : α)
    (hfail : ∀ x ∈ l1, p x = false) (hpass : p r = true) :
    (l1 ++ r :: l2).find? p = some r := by
  induction l1 with
  | nil => simp [List.find?_cons, hpass]
  | cons x l1 ih =>
      have hx : p x = false := hfail x (List.mem_cons_self ..)
      simp only [List.cons_append, List.find?_cons, hx]
      exact ih (fun y hy => hfail y (List.mem_cons_of_mem _ hy))

/-- C9: resolution fails with a not-found error exactly on an empty
candidate list; a candidate preceded only by candidates failing the double
`> 0.7` similarity test and itself passing it is the one chosen; and when
no candidate passes, the first (highest-ranked) search result is the
fallback best guess. -/
theorem C9_best_match_selection (song_name artist_name : String)
    (results : List SearchResult) :
    (find_best_match song_name artist_name []
      = .error (.lyricsNotFound song_name artist_name)) ∧
    (results ≠ [] → ∃ r, find_best_match song_name artist_name results = .ok r) ∧
    (∀ l1 r l2, results = l1 ++ r :: l2 →
      (∀ x ∈ l1, isConfidentMatch song_name artist_name x = false) →
      isConfidentMatch song_name artist_name r = true →
      find_best_match song_name artist_name results = .ok r) ∧
    ((∀ x ∈ results, isConfidentMatch song_name artist_name x = false) →
      ∀ r0 rs, results = r0 :: rs →
        find_best_match song_name artist_name results = .ok r0) := by
  refine ⟨rfl, ?_, ?_, ?_⟩
  · intro hne
    cases results with
    | nil => exact absurd rfl hne
    | cons r0 rest =>
        unfold find_best_match
        simp only []
        cases hf : (r0 :: rest).find? (isConfidentMatch song_name artist_name) with
        | none => exact ⟨r0, rfl⟩
        | some r => exact ⟨r, rfl⟩
  · intro l1 r l2 hsplit hfail hpass
    have hfind : results.find? (isConfidentMatch song_name artist_name) = some r := by
      rw [hsplit]
      exact find?_append_first l1 l2 r hfail hpass
    cases results with
    | nil => simp at hsplit
    | cons r0 rest =>
        unfold find_best_match
        simp only []
        rw [hfind]
  · intro hfail r0 rs hsplit
    subst hsplit
    have hfind : (r0 :: rs).find? (isConfidentMatch song_name artist_name)
        = none := by
      rw [List.find?_eq_none]
      intro x hx
      simp [hfail x hx]
    unfold find_best_match
    simp only []
    rw [hfind]

end LyricMood
